import Mathlib

/-!
Verification of the sequential identifier allocator and the membership
lifecycle of the Kalda-Tech membership registration system, shallowly
embedded from `main_application/models.py`, `main_application/views.py`
and `main_application/admin.py`.

Dates and datetimes are represented as natural numbers (day index /
timestamp); adding a `timedelta(days=k)` is addition of `k`.  Database
tables are association lists keyed by primary key.  A view that raises
`Http404` (via `get_object_or_404`) is modelled as returning `none`.
-/

/-- Character-list prefix test: `charsIsPfx pat s` is true when `pat` is an
initial segment of `s`.  Models Python `str.startswith` and the Django
`field__startswith` lookup. -/
def charsIsPfx : List Char → List Char → Bool
  | [], _ => true
  | _ :: _, [] => false
  | p :: ps, c :: cs => p == c && charsIsPfx ps cs

/-- `strStartsWith s pat` models `s.startswith(pat)`. -/
def strStartsWith (s pat : String) : Bool := charsIsPfx pat.data s.data

/-- Helper of `lastSegment`: splits a character list on `'-'`, accumulating
the current segment in reverse. -/
def splitDashAux : List Char → List Char → List (List Char)
  | [], acc => [acc.reverse]
  | c :: cs, acc => if c = '-' then acc.reverse :: splitDashAux cs [] else splitDashAux cs (c :: acc)

/-- Last field of the dash-split of `s`, i.e. Python `s.split('-')[-1]`. -/
def lastSegment (s : String) : List Char := (splitDashAux s.data []).getLastD []

/-- Decimal digit character for `d ≤ 9` (larger inputs collapse to `'9'`;
the allocator only ever passes remainders modulo ten). -/
def digitChar (d : Nat) : Char :=
  if d = 0 then '0' else if d = 1 then '1' else if d = 2 then '2'
  else if d = 3 then '3' else if d = 4 then '4' else if d = 5 then '5'
  else if d = 6 then '6' else if d = 7 then '7' else if d = 8 then '8' else '9'

/-- Fuelled decimal rendering; `fuel` bounds the number of digits. -/
def natCharsAux (fuel n : Nat) : List Char :=
  match fuel with
  | 0 => []
  | fuel' + 1 =>
    if n < 10 then [digitChar n] else natCharsAux fuel' (n / 10) ++ [digitChar (n % 10)]

/-- Decimal rendering of a natural number, as produced by Python string
interpolation of an `int`. -/
def natChars (n : Nat) : List Char := natCharsAux (n + 1) n

/-- The `{year}` part of the identifier templates. -/
def yearStr (year : Nat) : String := String.mk (natChars year)

/-- Zero padding to four digits: the `{n:04d}` format specifier. -/
def pad4 (n : Nat) : String :=
  String.mk (List.replicate (4 - (natChars n).length) '0' ++ natChars n)

/-- Numeric value of a digit character. -/
def digitVal (c : Char) : Nat := c.toNat - 48

/-- Decimal value of a digit string: the behaviour of Python `int` on the
numeric suffixes produced by the allocator (on a non-numeric argument
`int` raises `ValueError`; that path is unreachable for allocator-issued
identifiers, and this total model returns a junk value there). -/
def charsToNat (cs : List Char) : Nat := cs.foldl (fun a c => 10 * a + digitVal c) 0

/-- `int(s.split('-')[-1])` on an allocator-issued identifier. -/
def parseTrailingNat (s : String) : Nat := charsToNat (lastSegment s)

/-- Prefix `f'{kind}-{year}'` that scopes a sequence. -/
def idPfx (kind : String) (year : Nat) : String := kind ++ "-" ++ yearStr year

/-- The identifier template `f'{kind}-{year}-{seq:04d}'`. -/
def formatSeqId (kind : String) (year : Nat) (n : Nat) : String :=
  idPfx kind year ++ "-" ++ pad4 n

/-- `Model.objects.filter(field__startswith=pfx).order_by('-field').first()`:
the largest stored identifier carrying the given prefix, under string
ordering. -/
def maxIssued (pfx : String) (issued : List String) : Option String :=
  (issued.filter (fun s => strStartsWith s pfx)).foldl
    (fun acc s =>
      match acc with
      | none => some s
      | some b => if b < s then some s else some b) none

/-- The sequential identifier allocator shared by `Member.save`
(prefix `KTS`), `PaymentReceipt.save` (prefix `RCT`) and
`MembershipCertificate.save` (prefix `CERT`): take the largest previously
issued identifier with prefix `kind-year`, parse its trailing numeric
suffix and add one (starting at 1 when none exists), then zero-pad to four
digits. -/
def allocate (kind : String) (year : Nat) (issued : List String) : String :=
  match maxIssued (idPfx kind year) issued with
  | some last => formatSeqId kind year (parseTrailingNat last + 1)
  | none => formatSeqId kind year 1

/-- Member status enumeration (`Member.STATUS_CHOICES`). -/
inductive MemberStatus
  | pending
  | approved
  | rejected
  | suspended
  | expired
deriving DecidableEq

/-- `MembershipCategory`, reduced to the field the lifecycle logic reads. -/
structure MembershipCategory where
  duration_months : Nat
deriving DecidableEq

/-- `Member`, reduced to the fields the lifecycle logic reads and writes.
`user` holds the primary key of the owning account. -/
structure Member where
  user : Nat
  membership_category : MembershipCategory
  membership_id : String
  status : MemberStatus
  approval_date : Option Nat
  expiry_date : Option Nat
  approved_by : Option Nat
  rejection_reason : String
deriving DecidableEq

/-- `Member.is_membership_active`: false unless status is `approved`; an
`approved` member with an `expiry_date` strictly before today is inactive;
a missing (`None`) expiry date is skipped by the Python truthiness test. -/
def Member.is_membership_active (m : Member) (today : Nat) : Bool :=
  if m.status ≠ .approved then false
  else
    match m.expiry_date with
    | some d => if d < today then false else true
    | none => true

/-- The `membership_id` generation branch of `Member.save`: allocate a
`KTS-{year}-{seq:04d}` identifier only when the field is still empty.
`issued` is the set of membership ids visible in the store at save time. -/
def Member.save (year : Nat) (issued : List String) (m : Member) : Member :=
  if m.membership_id = "" then { m with membership_id := allocate "KTS" year issued } else m

/-- `PaymentReceipt`, reduced to the allocator-relevant fields. -/
structure PaymentReceipt where
  payment : Nat
  receipt_number : String
deriving DecidableEq

/-- The `receipt_number` generation branch of `PaymentReceipt.save`. -/
def PaymentReceipt.save (year : Nat) (issued : List String) (r : PaymentReceipt) : PaymentReceipt :=
  if r.receipt_number = "" then { r with receipt_number := allocate "RCT" year issued } else r

/-- `MembershipCertificate`, reduced to the allocator-relevant fields. -/
structure MembershipCertificate where
  member : Nat
  certificate_number : String
deriving DecidableEq

/-- The `certificate_number` generation branch of
`MembershipCertificate.save`. -/
def MembershipCertificate.save (year : Nat) (issued : List String)
    (c : MembershipCertificate) : MembershipCertificate :=
  if c.certificate_number = "" then { c with certificate_number := allocate "CERT" year issued } else c

/-- Payment status enumeration (`Payment.STATUS_CHOICES`). -/
inductive PaymentStatus
  | initiated
  | pending
  | completed
  | failed
  | cancelled
  | refunded
deriving DecidableEq

/-- `Payment`, reduced to the fields the claims read. -/
structure Payment where
  member : Nat
  payment_reference : String
  status : PaymentStatus
  completed_at : Option Nat
deriving DecidableEq

/-- A newly created payment row: Django field defaults are
`status='initiated'` and `completed_at=NULL`. -/
def mkPayment (member : Nat) (ref : String) : Payment :=
  { member := member, payment_reference := ref, status := .initiated, completed_at := none }

/-- `AuditLog` row (actor may be NULL for failed logins). -/
structure AuditLog where
  user : Option Nat
  action : String
  model_name : String
  object_id : String
  description : String
deriving DecidableEq

/-- `Notification` row. -/
structure Notification where
  recipient : Nat
  notification_type : String
  title : String
  message : String
deriving DecidableEq

/-- The relational store, as the lifecycle operations see it. -/
structure DB where
  members : List (Nat × Member)
  payments : List (Nat × Payment)
  audit_logs : List AuditLog
  notifications : List Notification
deriving DecidableEq

/-- Primary-key lookup in a keyed row list (`objects.get(id=i)`). -/
def findRec {α : Type} : List (Nat × α) → Nat → Option α
  | [], _ => none
  | p :: ps, i => if p.1 = i then some p.2 else findRec ps i

/-- Persist a row under key `i` (`obj.save()` on an existing row). -/
def setRec {α : Type} (l : List (Nat × α)) (i : Nat) (a : α) : List (Nat × α) :=
  l.map (fun p => if p.1 = i then (p.1, a) else p)

/-- `queryset.filter(sel).update(f)` over a keyed row list. -/
def bulkUpdate {α : Type} (l : List (Nat × α)) (sel : Nat → α → Bool) (f : α → α) :
    List (Nat × α) :=
  l.map (fun p => if sel p.1 p.2 then (p.1, f p.2) else p)

/-- `Member.objects.get(id=i)` against the store. -/
def DB.findMember (db : DB) (i : Nat) : Option Member := findRec db.members i

/-- All stored membership ids: the population the `KTS` allocator queries. -/
def DB.member_ids (db : DB) : List String := db.members.map (fun p => p.2.membership_id)

/-- Field updates performed on approval, shared by `views.approve_member`
and `MemberAdmin.approve_members`: status, approver, approval timestamp and
`expiry_date = today + duration_months * 30` days. -/
def approveFieldsUpdate (m : Member) (actor nowT today : Nat) : Member :=
  { m with
    status := .approved
    approved_by := some actor
    approval_date := some nowT
    expiry_date := some (today + m.membership_category.duration_months * 30) }

/-- Success branch of `views.approve_member`: update the member fields,
save, then append one `AuditLog` row and one `Notification` row. -/
def approveApplied (db : DB) (member_id actor nowT today year : Nat) (m : Member) : DB :=
  let m2 := Member.save year db.member_ids (approveFieldsUpdate m actor nowT today)
  { db with
    members := setRec db.members member_id m2
    audit_logs := db.audit_logs ++
      [{ user := some actor, action := "approve", model_name := "Member",
         object_id := toString member_id,
         description := "Approved member " ++ m2.membership_id }]
    notifications := db.notifications ++
      [{ recipient := m.user, notification_type := "approval",
         title := "Membership Approved",
         message := "Congratulations! Your membership application has been approved. Your membership ID is " ++ m2.membership_id ++ "." }] }

/-- `views.approve_member` (POST branch).  `get_object_or_404(Member,
id=member_id, status='pending')` is modelled by returning `none` (the
raised `Http404`) when no pending member with that id exists. -/
def approve_member (db : DB) (member_id actor nowT today year : Nat) : Option DB :=
  match findRec db.members member_id with
  | none => none
  | some m =>
    if m.status = .pending then some (approveApplied db member_id actor nowT today year m)
    else none

/-- Success branch of `views.reject_member`: set status and
`rejection_reason` (but not `approved_by`), save, then append one
`AuditLog` row and one `Notification` row. -/
def rejectApplied (db : DB) (member_id : Nat) (reason : String) (actor year : Nat)
    (m : Member) : DB :=
  let m2 := Member.save year db.member_ids { m with status := .rejected, rejection_reason := reason }
  { db with
    members := setRec db.members member_id m2
    audit_logs := db.audit_logs ++
      [{ user := some actor, action := "reject", model_name := "Member",
         object_id := toString member_id,
         description := "Rejected member " ++ m2.membership_id ++ ". Reason: " ++ reason }]
    notifications := db.notifications ++
      [{ recipient := m.user, notification_type := "approval",
         title := "Membership Application Rejected",
         message := "Your membership application has been rejected. Reason: " ++ reason }] }

/-- `views.reject_member` (POST branch).  `none` models the `Http404`
raised by `get_object_or_404` for a missing or non-pending member. -/
def reject_member (db : DB) (member_id : Nat) (reason : String) (actor year : Nat) : Option DB :=
  match findRec db.members member_id with
  | none => none
  | some m =>
    if m.status = .pending then some (rejectApplied db member_id reason actor year m)
    else none

/-- `MemberAdmin.approve_members`: iterates `queryset.filter(status='pending')`
setting the approval fields and saving each member, returning the number
updated.  It creates no `AuditLog` row and no `Notification` row
(`message_user` is a UI flash message, not a `Notification`).  The
`member.save()` call only touches `membership_id` when that field is empty,
which never holds for a persisted member, so the id branch is omitted. -/
def approve_members (db : DB) (ids : List Nat) (actor nowT today : Nat) : DB × Nat :=
  ({ db with
      members := bulkUpdate db.members
        (fun i m => decide (i ∈ ids ∧ m.status = .pending))
        (fun m => approveFieldsUpdate m actor nowT today) },
   (db.members.filter (fun p => decide (p.1 ∈ ids ∧ p.2.status = .pending))).length)

/-- `MemberAdmin.reject_members`: the bulk update
`queryset.filter(status='pending').update(status='rejected', approved_by=user)`
returning the number of affected rows.  Sets `approved_by` but not
`rejection_reason`; creates no `AuditLog` and no `Notification`. -/
def reject_members (db : DB) (ids : List Nat) (actor : Nat) : DB × Nat :=
  ({ db with
      members := bulkUpdate db.members
        (fun i m => decide (i ∈ ids ∧ m.status = .pending))
        (fun m => { m with status := .rejected, approved_by := some actor }) },
   (db.members.filter (fun p => decide (p.1 ∈ ids ∧ p.2.status = .pending))).length)

/-- `PaymentAdmin.mark_as_completed`:
`queryset.filter(status='pending').update(status='completed', completed_at=now)`. -/
def mark_as_completed (db : DB) (ids : List Nat) (nowT : Nat) : DB × Nat :=
  ({ db with
      payments := bulkUpdate db.payments
        (fun i p => decide (i ∈ ids ∧ p.status = .pending))
        (fun p => { p with status := .completed, completed_at := some nowT }) },
   (db.payments.filter (fun p => decide (p.1 ∈ ids ∧ p.2.status = .pending))).length)

/-- `PaymentAdmin.mark_as_failed`:
`queryset.filter(status__in=['initiated', 'pending']).update(status='failed')`. -/
def mark_as_failed (db : DB) (ids : List Nat) : DB × Nat :=
  ({ db with
      payments := bulkUpdate db.payments
        (fun i p => decide (i ∈ ids ∧ (p.status = .initiated ∨ p.status = .pending)))
        (fun p => { p with status := .failed }) },
   (db.payments.filter
      (fun p => decide (p.1 ∈ ids ∧ (p.2.status = .initiated ∨ p.2.status = .pending)))).length)

/-- Data-model invariant stated by the spec: `completed_at` is set only
when the payment status is `completed`. -/
def payInv (p : Payment) : Prop := p.completed_at ≠ none → p.status = .completed

instance (p : Payment) : Decidable (payInv p) := by unfold payInv; infer_instance

/-- State of two concurrent callers of the allocator.  Each caller first
reads a snapshot of the committed identifiers (the `filter ... first()`
query) and later inserts the identifier computed from its own snapshot;
nothing in the source serializes the two. -/
structure ConcState where
  committed : List String
  snapA : Option (List String)
  snapB : Option (List String)
  outA : Option String
  outB : Option String
deriving DecidableEq

/-- One atomic step of a caller: its snapshot read or its insert. -/
inductive AllocStep
  | readA
  | readB
  | writeA
  | writeB
deriving DecidableEq

/-- Initial state: nothing committed, nothing read. -/
def allocInit : ConcState :=
  { committed := [], snapA := none, snapB := none, outA := none, outB := none }

/-- Interleaving semantics of the read-max-then-insert allocation: a write
computes `allocate` from the snapshot its caller read, not from the
current committed state. -/
def allocStepFn (kind : String) (year : Nat) (s : ConcState) : AllocStep → ConcState
  | .readA => { s with snapA := some s.committed }
  | .readB => { s with snapB := some s.committed }
  | .writeA =>
    match s.snapA with
    | none => s
    | some snap =>
      let i := allocate kind year snap
      { s with committed := s.committed ++ [i], outA := some i }
  | .writeB =>
    match s.snapB with
    | none => s
    | some snap =>
      let i := allocate kind year snap
      { s with committed := s.committed ++ [i], outB := some i }

/-- Run a schedule of interleaved allocator steps. -/
def runAlloc (kind : String) (year : Nat) (sched : List AllocStep) : ConcState :=
  sched.foldl (allocStepFn kind year) allocInit

/-- A standard 12-month category. -/
def catStd : MembershipCategory := { duration_months := 12 }

/-- A pending member fixture. -/
def memPending : Member :=
  { user := 10, membership_category := catStd, membership_id := "KTS-2024-0001",
    status := .pending, approval_date := none, expiry_date := none,
    approved_by := none, rejection_reason := "" }

/-- An approved member fixture with an expiry date. -/
def memApproved : Member :=
  { memPending with
    status := .approved, approval_date := some 100,
    approved_by := some 7, expiry_date := some 500 }

/-- A member before first persistence: `membership_id` still empty. -/
def memBlankId : Member := { memPending with membership_id := "" }

/-- An approved member whose expiry date was never set. -/
def memApprovedNoExpiry : Member := { memPending with status := .approved }

/-- Store holding one pending member. -/
def dbPending : DB :=
  { members := [(1, memPending)], payments := [], audit_logs := [], notifications := [] }

/-- Store holding one approved member. -/
def dbApproved : DB :=
  { members := [(1, memApproved)], payments := [], audit_logs := [], notifications := [] }

/-- A pending payment fixture. -/
def payPending : Payment :=
  { member := 1, payment_reference := "PAY-20240115-AB12CD34",
    status := .pending, completed_at := none }

/-- Store holding one pending payment. -/
def dbPay : DB :=
  { members := [(1, memApproved)], payments := [(5, payPending)],
    audit_logs := [], notifications := [] }

/-- A receipt before first persistence. -/
def recBlank : PaymentReceipt := { payment := 5, receipt_number := "" }

/-- A certificate before first persistence. -/
def certBlank : MembershipCertificate := { member := 1, certificate_number := "" }

/-! ## Helper lemmas -/

/-- A list is a prefix of itself extended by anything. -/
theorem charsIsPfx_append (p t : List Char) : charsIsPfx p (p ++ t) = true := by
  induction p with
  | nil => rfl
  | cons c cs ih => simp [charsIsPfx, ih]

/-- `startswith` holds for any extension of the pattern. -/
theorem strStartsWith_append (a b : String) : strStartsWith (a ++ b) a = true := by
  unfold strStartsWith
  have h : (a ++ b).data = a.data ++ b.data := rfl
  rw [h]
  exact charsIsPfx_append a.data b.data

/-- Splitting a dash-free character list yields a single segment. -/
theorem splitDashAux_no_dash (zs : List Char) (h : '-' ∉ zs) :
    ∀ acc, splitDashAux zs acc = [acc.reverse ++ zs] := by
  induction zs with
  | nil => intro acc; simp [splitDashAux]
  | cons c cs ih =>
    intro acc
    have hc : c ≠ '-' := fun hEq => h (hEq ▸ List.mem_cons_self c cs)
    have hcs : '-' ∉ cs := fun hm => h (List.mem_cons_of_mem c hm)
    simp [splitDashAux, hc, ih hcs]

/-- The final dash-split segment of `xs ++ '-' :: zs` is `zs` whenever `zs`
itself is dash-free, whatever `xs` contains. -/
theorem getLastD_splitDashAux (zs : List Char) (h : '-' ∉ zs) :
    ∀ (xs acc d : List Char), (splitDashAux (xs ++ '-' :: zs) acc).getLastD d = zs := by
  intro xs
  induction xs with
  | nil =>
    intro acc d
    simp [splitDashAux, splitDashAux_no_dash zs h, List.getLastD_cons]
  | cons x xs ih =>
    intro acc d
    by_cases hx : x = '-'
    · have h1 : splitDashAux ((x :: xs) ++ '-' :: zs) acc
          = acc.reverse :: splitDashAux (xs ++ '-' :: zs) [] := by
        show splitDashAux (x :: (xs ++ '-' :: zs)) acc = _
        show (if x = '-' then acc.reverse :: splitDashAux (xs ++ '-' :: zs) []
              else splitDashAux (xs ++ '-' :: zs) (x :: acc)) = _
        rw [if_pos hx]
      rw [h1, List.getLastD_cons]
      exact ih [] acc.reverse
    · have h1 : splitDashAux ((x :: xs) ++ '-' :: zs) acc
          = splitDashAux (xs ++ '-' :: zs) (x :: acc) := by
        show splitDashAux (x :: (xs ++ '-' :: zs)) acc = _
        show (if x = '-' then acc.reverse :: splitDashAux (xs ++ '-' :: zs) []
              else splitDashAux (xs ++ '-' :: zs) (x :: acc)) = _
        rw [if_neg hx]
      rw [h1]
      exact ih (x :: acc) d

/-- Allocation in a fresh scope starts at `0001`.  (Shared helper.) -/
theorem alloc_empty_store (kind : String) (year : Nat) :
    allocate kind year [] = idPfx kind year ++ "-0001" := by
  show idPfx kind year ++ "-" ++ pad4 1 = _
  rw [String.append_assoc]
  rfl

/-- Allocation in a scope holding exactly its first identifier yields the
second.  (Shared helper.) -/
theorem alloc_after_first (kind : String) (year : Nat) :
    allocate kind year [idPfx kind year ++ "-0001"] = idPfx kind year ++ "-0002" := by
  have hstart : strStartsWith (idPfx kind year ++ "-0001") (idPfx kind year) = true :=
    strStartsWith_append _ _
  have hmax : maxIssued (idPfx kind year) [idPfx kind year ++ "-0001"]
      = some (idPfx kind year ++ "-0001") := by
    simp [maxIssued, hstart]
  have hparse : parseTrailingNat (idPfx kind year ++ "-0001") = 1 := by
    unfold parseTrailingNat lastSegment
    have hd : (idPfx kind year ++ "-0001").data
        = (idPfx kind year).data ++ '-' :: "0001".data := rfl
    rw [hd, getLastD_splitDashAux "0001".data (by decide)]
    rfl
  unfold allocate
  rw [hmax]
  show formatSeqId kind year (parseTrailingNat (idPfx kind year ++ "-0001") + 1) = _
  rw [hparse]
  show idPfx kind year ++ "-" ++ pad4 2 = _
  rw [String.append_assoc]
  rfl

/-- A formatted sequential identifier is never the empty string. -/
theorem formatSeqId_ne_empty (kind : String) (year n : Nat) : formatSeqId kind year n ≠ "" := by
  intro hEq
  have h2 : ((idPfx kind year).data ++ ['-']) ++ (pad4 n).data = [] := by
    have h : (formatSeqId kind year n).data = [] := by rw [hEq]
    exact h
  simp at h2

/-- The allocator never returns the empty string. -/
theorem allocate_ne_empty (kind : String) (year : Nat) (issued : List String) :
    allocate kind year issued ≠ "" := by
  unfold allocate
  cases hmax : maxIssued (idPfx kind year) issued with
  | none => exact formatSeqId_ne_empty kind year 1
  | some last => exact formatSeqId_ne_empty kind year _

/-- Mapping a pointwise-identity function leaves a list unchanged. -/
theorem map_eq_self {α : Type} (l : List α) (f : α → α) (h : ∀ a ∈ l, f a = a) :
    l.map f = l := by
  induction l with
  | nil => rfl
  | cons x xs ih =>
    simp only [List.map_cons]
    rw [h x (List.mem_cons_self x xs), ih (fun a ha => h a (List.mem_cons_of_mem x ha))]

/-- Lookup after a keyed overwrite of the same key. -/
theorem findRec_setRec {α : Type} (l : List (Nat × α)) (i : Nat) (a b : α)
    (h : findRec l i = some b) : findRec (setRec l i a) i = some a := by
  induction l with
  | nil => simp [findRec] at h
  | cons p ps ih =>
    by_cases hpi : p.1 = i
    · simp [findRec, setRec, hpi]
    · have hh : findRec (p :: ps) i = findRec ps i := by
        show (if p.1 = i then some p.2 else findRec ps i) = _
        rw [if_neg hpi]
      rw [hh] at h
      show findRec ((if p.1 = i then (p.1, a) else p) :: setRec ps i a) i = some a
      rw [if_neg hpi]
      show (if p.1 = i then some p.2 else findRec (setRec ps i a) i) = some a
      rw [if_neg hpi]
      exact ih h

/-- Lookup through a bulk update: the row is transformed exactly when the
selector accepts it. -/
theorem findRec_bulkUpdate {α : Type} (l : List (Nat × α)) (sel : Nat → α → Bool)
    (f : α → α) (i : Nat) :
    findRec (bulkUpdate l sel f) i
      = (findRec l i).map (fun a => if sel i a then f a else a) := by
  induction l with
  | nil => rfl
  | cons p ps ih =>
    have hhead : (if sel p.1 p.2 then (p.1, f p.2) else p).1 = p.1 := by
      cases hs : sel p.1 p.2 <;> rfl
    have hsnd : (if sel p.1 p.2 then (p.1, f p.2) else p).2
        = (if sel p.1 p.2 then f p.2 else p.2) := by
      cases hs : sel p.1 p.2 <;> rfl
    show (if (if sel p.1 p.2 then (p.1, f p.2) else p).1 = i
          then some (if sel p.1 p.2 then (p.1, f p.2) else p).2
          else findRec (bulkUpdate ps sel f) i) = _
    rw [hhead, hsnd]
    by_cases hpi : p.1 = i
    · rw [if_pos hpi]
      have hR : findRec (p :: ps) i = some p.2 := by
        show (if p.1 = i then some p.2 else findRec ps i) = _
        rw [if_pos hpi]
      rw [hR]
      subst hpi
      rfl
    · rw [if_neg hpi]
      have hR : findRec (p :: ps) i = findRec ps i := by
        show (if p.1 = i then some p.2 else findRec ps i) = _
        rw [if_neg hpi]
      rw [hR]
      exact ih

/-- Fields other than `membership_id` pass through `Member.save` untouched. -/
theorem Member_save_keeps_fields (year : Nat) (issued : List String) (m : Member) :
    (Member.save year issued m).status = m.status ∧
    (Member.save year issued m).approval_date = m.approval_date ∧
    (Member.save year issued m).approved_by = m.approved_by ∧
    (Member.save year issued m).expiry_date = m.expiry_date ∧
    (Member.save year issued m).rejection_reason = m.rejection_reason ∧
    (Member.save year issued m).user = m.user := by
  unfold Member.save
  split <;> exact ⟨rfl, rfl, rfl, rfl, rfl, rfl⟩

/-- `Member.save` is the identity on a member whose id is already set. -/
theorem Member_save_of_id_ne (year : Nat) (issued : List String) (m : Member)
    (h : m.membership_id ≠ "") : Member.save year issued m = m := by
  unfold Member.save
  rw [if_neg h]

/-- Reduction of `approve_member` on a pending member. -/
theorem approve_member_eq (db : DB) (mid actor nowT today year : Nat) (m : Member)
    (hm : findRec db.members mid = some m) (hp : m.status = MemberStatus.pending) :
    approve_member db mid actor nowT today year
      = some (approveApplied db mid actor nowT today year m) := by
  unfold approve_member
  simp only [hm]
  rw [if_pos hp]

/-- Reduction of `reject_member` on a pending member. -/
theorem reject_member_eq (db : DB) (mid : Nat) (reason : String) (actor year : Nat) (m : Member)
    (hm : findRec db.members mid = some m) (hp : m.status = MemberStatus.pending) :
    reject_member db mid reason actor year = some (rejectApplied db mid reason actor year m) := by
  unfold reject_member
  simp only [hm]
  rw [if_pos hp]

/-- Reduction of `reject_member` on a non-pending member: `Http404`. -/
theorem reject_member_eq_none (db : DB) (mid : Nat) (reason : String) (actor year : Nat)
    (m : Member) (hm : findRec db.members mid = some m)
    (hp : m.status ≠ MemberStatus.pending) :
    reject_member db mid reason actor year = none := by
  unfold reject_member
  simp only [hm]
  rw [if_neg hp]

/-- Claim C2: approving a member whose status is `pending` sets the status
to `approved`, the approval timestamp to the current time, `approved_by` to
the acting user, and `expiry_date` to the current date plus
`duration_months * 30` days (fixed 30-day months); with
`duration_months = 12` the expiry is today plus 360 days.  The same field
updates are applied by the admin bulk action `approve_members`. -/
theorem approve_member_sets_fields (db : DB) (mid actor nowT today year : Nat) (m : Member)
    (hm : db.findMember mid = some m) (hp : m.status = MemberStatus.pending) :
    (∃ db2 m2, approve_member db mid actor nowT today year = some db2 ∧
      db2.findMember mid = some m2 ∧
      m2.status = MemberStatus.approved ∧
      m2.approval_date = some nowT ∧
      m2.approved_by = some actor ∧
      m2.expiry_date = some (today + m.membership_category.duration_months * 30) ∧
      (m.membership_category.duration_months = 12 → m2.expiry_date = some (today + 360))) ∧
    (∀ ids, mid ∈ ids →
      ∃ m3, findRec (approve_members db ids actor nowT today).1.members mid = some m3 ∧
        m3.status = MemberStatus.approved ∧
        m3.approval_date = some nowT ∧
        m3.approved_by = some actor ∧
        m3.expiry_date = some (today + m.membership_category.duration_months * 30)) := by
  have hm' : findRec db.members mid = some m := hm
  constructor
  · refine ⟨approveApplied db mid actor nowT today year m,
      Member.save year db.member_ids (approveFieldsUpdate m actor nowT today),
      approve_member_eq db mid actor nowT today year m hm' hp, ?_, ?_, ?_, ?_, ?_, ?_⟩
    · exact findRec_setRec db.members mid _ m hm'
    · rw [(Member_save_keeps_fields year db.member_ids (approveFieldsUpdate m actor nowT today)).1]
      rfl
    · rw [(Member_save_keeps_fields year db.member_ids (approveFieldsUpdate m actor nowT today)).2.1]
      rfl
    · rw [(Member_save_keeps_fields year db.member_ids (approveFieldsUpdate m actor nowT today)).2.2.1]
      rfl
    · rw [(Member_save_keeps_fields year db.member_ids (approveFieldsUpdate m actor nowT today)).2.2.2.1]
      rfl
    · intro h12
      rw [(Member_save_keeps_fields year db.member_ids (approveFieldsUpdate m actor nowT today)).2.2.2.1]
      show some (today + m.membership_category.duration_months * 30) = some (today + 360)
      rw [h12]
  · intro ids hmid
    refine ⟨approveFieldsUpdate m actor nowT today, ?_, rfl, rfl, rfl, rfl⟩
    show findRec (bulkUpdate db.members
        (fun i mm => decide (i ∈ ids ∧ mm.status = MemberStatus.pending))
        (fun mm => approveFieldsUpdate mm actor nowT today)) mid
      = some (approveFieldsUpdate m actor nowT today)
    rw [findRec_bulkUpdate, hm', Option.map_some']
    rw [if_pos (by simp only [decide_eq_true_eq]; exact ⟨hmid, hp⟩)]

/-- Witness for C2 at a concrete pending member. -/
theorem approve_member_sets_fields_witness :
    dbPending.findMember 1 = some memPending ∧ memPending.status = MemberStatus.pending ∧
    ((∃ db2 m2, approve_member dbPending 1 99 1000 500 2024 = some db2 ∧
        db2.findMember 1 = some m2 ∧
        m2.status = MemberStatus.approved ∧
        m2.approval_date = some 1000 ∧
        m2.approved_by = some 99 ∧
        m2.expiry_date = some (500 + memPending.membership_category.duration_months * 30) ∧
        (memPending.membership_category.duration_months = 12 →
          m2.expiry_date = some (500 + 360))) ∧
      (∀ ids, (1 : Nat) ∈ ids →
        ∃ m3, findRec (approve_members dbPending ids 99 1000 500).1.members 1 = some m3 ∧
          m3.status = MemberStatus.approved ∧
          m3.approval_date = some 1000 ∧
          m3.approved_by = some 99 ∧
          m3.expiry_date = some (500 + memPending.membership_category.duration_months * 30))) :=
  ⟨rfl, rfl, approve_member_sets_fields dbPending 1 99 1000 500 2024 memPending rfl rfl⟩

/-- Claim C6 (amended): each invocation of the approve view or the reject
view on a pending member appends exactly one `AuditLog` row and exactly one
`Notification` row addressed to the member's user; the admin bulk actions
`approve_members` and `reject_members` append no `AuditLog` row and no
`Notification` row. -/
theorem view_audit_notification_side_effects (db : DB) (mid actor nowT today year : Nat)
    (reason : String) (m : Member)
    (hm : db.findMember mid = some m) (hp : m.status = MemberStatus.pending) :
    (∃ db2 n, approve_member db mid actor nowT today year = some db2 ∧
        db2.audit_logs.length = db.audit_logs.length + 1 ∧
        db2.notifications = db.notifications ++ [n] ∧ n.recipient = m.user) ∧
    (∃ db2 n, reject_member db mid reason actor year = some db2 ∧
        db2.audit_logs.length = db.audit_logs.length + 1 ∧
        db2.notifications = db.notifications ++ [n] ∧ n.recipient = m.user) ∧
    (∀ ids, (approve_members db ids actor nowT today).1.audit_logs = db.audit_logs ∧
            (approve_members db ids actor nowT today).1.notifications = db.notifications) ∧
    (∀ ids, (reject_members db ids actor).1.audit_logs = db.audit_logs ∧
            (reject_members db ids actor).1.notifications = db.notifications) := by
  have hm' : findRec db.members mid = some m := hm
  refine ⟨⟨approveApplied db mid actor nowT today year m, _,
      approve_member_eq db mid actor nowT today year m hm' hp, ?_, rfl, rfl⟩,
    ⟨rejectApplied db mid reason actor year m, _,
      reject_member_eq db mid reason actor year m hm' hp, ?_, rfl, rfl⟩,
    fun _ => ⟨rfl, rfl⟩, fun _ => ⟨rfl, rfl⟩⟩
  · show (db.audit_logs ++ [_]).length = db.audit_logs.length + 1
    rw [List.length_append]
    rfl
  · show (db.audit_logs ++ [_]).length = db.audit_logs.length + 1
    rw [List.length_append]
    rfl

/-- Witness for the amended C6 at a concrete pending member. -/
theorem view_audit_notification_side_effects_witness :
    dbPending.findMember 1 = some memPending ∧ memPending.status = MemberStatus.pending ∧
    (∃ db2 n, approve_member dbPending 1 99 1000 500 2024 = some db2 ∧
        db2.audit_logs.length = dbPending.audit_logs.length + 1 ∧
        db2.notifications = dbPending.notifications ++ [n] ∧ n.recipient = memPending.user) :=
  ⟨rfl, rfl,
    (view_audit_notification_side_effects dbPending 1 99 1000 500 2024 "no" memPending rfl rfl).1⟩

/-- Counterexample to claim C6 as stated: the admin bulk approve action on a
pending member updates that member (affected count 1) yet appends zero
`AuditLog` rows and zero `Notification` rows, not exactly one of each. -/
theorem admin_approve_no_audit_no_notification :
    (approve_members dbPending [1] 99 1000 500).2 = 1 ∧
    (approve_members dbPending [1] 99 1000 500).1.audit_logs.length = 0 ∧
    (approve_members dbPending [1] 99 1000 500).1.notifications.length = 0 :=
  ⟨by decide, rfl, rfl⟩

/-- Claim C3 (amended): for members that are not `pending`, the admin bulk
reject action is a no-op that reports zero affected rows and leaves every
member (indeed the whole store) unchanged; the single-member reject view
instead raises `Http404` (modelled as `none`) for a non-pending member,
likewise leaving the store unchanged. -/
theorem reject_nonpending_zero_rows (db : DB) (ids : List Nat) (actor : Nat)
    (h : ∀ p ∈ db.members, p.1 ∈ ids → p.2.status ≠ MemberStatus.pending) :
    reject_members db ids actor = (db, 0) ∧
    (∀ (mid year : Nat) (reason : String) (m : Member),
        db.findMember mid = some m → m.status ≠ MemberStatus.pending →
        reject_member db mid reason actor year = none) := by
  constructor
  · have h1 : bulkUpdate db.members
        (fun i mm => decide (i ∈ ids ∧ mm.status = MemberStatus.pending))
        (fun mm => { mm with status := MemberStatus.rejected, approved_by := some actor })
        = db.members := by
      apply map_eq_self
      intro p hp
      have hfalse : ¬(p.1 ∈ ids ∧ p.2.status = MemberStatus.pending) :=
        fun hc => h p hp hc.1 hc.2
      rw [if_neg (by simp only [decide_eq_true_eq]; exact hfalse)]
    have h2 : db.members.filter
        (fun p => decide (p.1 ∈ ids ∧ p.2.status = MemberStatus.pending)) = [] := by
      apply List.filter_eq_nil_iff.mpr
      intro p hp
      simp only [decide_eq_true_eq]
      exact fun hc => h p hp hc.1 hc.2
    show ({ db with members := bulkUpdate db.members _ _ },
      (db.members.filter _).length) = (db, 0)
    rw [h1, h2]
    rfl
  · intro mid year reason m hm hp
    exact reject_member_eq_none db mid reason actor year m hm hp

/-- Witness for the amended C3 at a concrete approved member. -/
theorem reject_nonpending_zero_rows_witness :
    (∀ p ∈ dbApproved.members, p.1 ∈ [1] → p.2.status ≠ MemberStatus.pending) ∧
    (reject_members dbApproved [1] 99 = (dbApproved, 0) ∧
      (∀ (mid year : Nat) (reason : String) (m : Member),
        dbApproved.findMember mid = some m → m.status ≠ MemberStatus.pending →
        reject_member dbApproved mid reason 99 year = none)) :=
  ⟨by decide, reject_nonpending_zero_rows dbApproved [1] 99 (by decide)⟩

/-- Counterexample to claim C3 as stated: invoking the reject view on a
member whose status is `approved` raises `Http404` (modelled as `none`)
instead of reporting zero affected rows without a hard failure. -/
theorem reject_view_nonpending_hard_404 :
    memApproved.status ≠ MemberStatus.pending ∧
    reject_member dbApproved 1 "incomplete documents" 99 2024 = none :=
  ⟨by decide, rfl⟩

/-- Counterexample to claim C9 as stated: the reject view applied to a
pending member moves it to `rejected` but leaves `approved_by` at `none`
instead of recording the acting user. -/
theorem reject_view_approver_not_set :
    memPending.status = MemberStatus.pending ∧
    ((reject_member dbPending 1 "missing documents" 99 2024).bind
        (fun db2 => db2.findMember 1)).map (fun m2 => (m2.status, m2.approved_by))
      = some (MemberStatus.rejected, none) := by
  decide

/-- Claim C9 (amended): the reject view sets the status to `rejected` and
records the rejection reason but leaves `approved_by` unchanged, emitting
the rejection notification; the admin bulk reject sets the status and
`approved_by` but leaves the rejection reason unchanged and emits no
notification. -/
theorem reject_field_effects (db : DB) (mid actor year : Nat) (reason : String) (m : Member)
    (hm : db.findMember mid = some m) (hp : m.status = MemberStatus.pending) :
    (∃ db2 m2, reject_member db mid reason actor year = some db2 ∧
        db2.findMember mid = some m2 ∧
        m2.status = MemberStatus.rejected ∧
        m2.rejection_reason = reason ∧
        m2.approved_by = m.approved_by ∧
        (∃ n, db2.notifications = db.notifications ++ [n] ∧ n.recipient = m.user)) ∧
    (∀ ids, mid ∈ ids →
        ∃ m3, findRec (reject_members db ids actor).1.members mid = some m3 ∧
          m3.status = MemberStatus.rejected ∧
          m3.approved_by = some actor ∧
          m3.rejection_reason = m.rejection_reason ∧
          (reject_members db ids actor).1.notifications = db.notifications) := by
  have hm' : findRec db.members mid = some m := hm
  constructor
  · refine ⟨rejectApplied db mid reason actor year m,
      Member.save year db.member_ids { m with status := MemberStatus.rejected, rejection_reason := reason },
      reject_member_eq db mid reason actor year m hm' hp, ?_, ?_, ?_, ?_, ⟨_, rfl, rfl⟩⟩
    · exact findRec_setRec db.members mid _ m hm'
    · rw [(Member_save_keeps_fields year db.member_ids
        { m with status := MemberStatus.rejected, rejection_reason := reason }).1]
    · rw [(Member_save_keeps_fields year db.member_ids
        { m with status := MemberStatus.rejected, rejection_reason := reason }).2.2.2.2.1]
    · rw [(Member_save_keeps_fields year db.member_ids
        { m with status := MemberStatus.rejected, rejection_reason := reason }).2.2.1]
  · intro ids hmid
    refine ⟨{ m with status := MemberStatus.rejected, approved_by := some actor },
      ?_, rfl, rfl, rfl, rfl⟩
    show findRec (bulkUpdate db.members
        (fun i mm => decide (i ∈ ids ∧ mm.status = MemberStatus.pending))
        (fun mm => { mm with status := MemberStatus.rejected, approved_by := some actor })) mid
      = some { m with status := MemberStatus.rejected, approved_by := some actor }
    rw [findRec_bulkUpdate, hm', Option.map_some']
    rw [if_pos (by simp only [decide_eq_true_eq]; exact ⟨hmid, hp⟩)]

/-- Witness for the amended C9 at a concrete pending member. -/
theorem reject_field_effects_witness :
    dbPending.findMember 1 = some memPending ∧ memPending.status = MemberStatus.pending ∧
    ((∃ db2 m2, reject_member dbPending 1 "no documents" 99 2024 = some db2 ∧
        db2.findMember 1 = some m2 ∧
        m2.status = MemberStatus.rejected ∧
        m2.rejection_reason = "no documents" ∧
        m2.approved_by = memPending.approved_by ∧
        (∃ n, db2.notifications = dbPending.notifications ++ [n] ∧
          n.recipient = memPending.user)) ∧
      (∀ ids, (1 : Nat) ∈ ids →
        ∃ m3, findRec (reject_members dbPending ids 99).1.members 1 = some m3 ∧
          m3.status = MemberStatus.rejected ∧
          m3.approved_by = some 99 ∧
          m3.rejection_reason = memPending.rejection_reason ∧
          (reject_members dbPending ids 99).1.notifications = dbPending.notifications)) :=
  ⟨rfl, rfl, reject_field_effects dbPending 1 99 2024 "no documents" memPending rfl rfl⟩

/-- Claim C7: `membership_id` is assigned exactly once, at first
persistence, and never changes: saving a member whose id is already
non-empty is the identity on the whole record, the first save produces a
non-empty id, and the approve view preserves the id of a persisted pending
member. -/
theorem membership_id_immutable (year : Nat) (issued : List String) (m m0 : Member)
    (h : m.membership_id ≠ "") (h0 : m0.membership_id = "") :
    Member.save year issued m = m ∧
    (Member.save year issued m).membership_id = m.membership_id ∧
    (Member.save year issued m0).membership_id ≠ "" ∧
    (∀ (db : DB) (mid actor nowT today : Nat) (mm : Member),
        db.findMember mid = some mm → mm.status = MemberStatus.pending →
        mm.membership_id ≠ "" →
        ∃ db2 m2, approve_member db mid actor nowT today year = some db2 ∧
          db2.findMember mid = some m2 ∧ m2.membership_id = mm.membership_id) := by
  refine ⟨Member_save_of_id_ne year issued m h, ?_, ?_, ?_⟩
  · rw [Member_save_of_id_ne year issued m h]
  · unfold Member.save
    rw [if_pos h0]
    exact allocate_ne_empty "KTS" year issued
  · intro db mid actor nowT today mm hmm hpend hne
    have hm' : findRec db.members mid = some mm := hmm
    refine ⟨approveApplied db mid actor nowT today year mm,
      Member.save year db.member_ids (approveFieldsUpdate mm actor nowT today),
      approve_member_eq db mid actor nowT today year mm hm' hpend, ?_, ?_⟩
    · exact findRec_setRec db.members mid _ mm hm'
    · have hne2 : (approveFieldsUpdate mm actor nowT today).membership_id ≠ "" := hne
      rw [Member_save_of_id_ne year db.member_ids (approveFieldsUpdate mm actor nowT today) hne2]
      rfl

/-- Witness for C7 at concrete members. -/
theorem membership_id_immutable_witness :
    memPending.membership_id ≠ "" ∧ memBlankId.membership_id = "" ∧
    (Member.save 2024 ["KTS-2024-0001"] memPending = memPending ∧
      (Member.save 2024 ["KTS-2024-0001"] memPending).membership_id = memPending.membership_id ∧
      (Member.save 2024 ["KTS-2024-0001"] memBlankId).membership_id ≠ "" ∧
      (∀ (db : DB) (mid actor nowT today : Nat) (mm : Member),
        db.findMember mid = some mm → mm.status = MemberStatus.pending →
        mm.membership_id ≠ "" →
        ∃ db2 m2, approve_member db mid actor nowT today 2024 = some db2 ∧
          db2.findMember mid = some m2 ∧ m2.membership_id = mm.membership_id)) :=
  ⟨by decide, rfl,
    membership_id_immutable 2024 ["KTS-2024-0001"] memPending memBlankId (by decide) rfl⟩

/-- Decomposition of membership in a bulk update. -/
theorem mem_bulkUpdate {α : Type} {l : List (Nat × α)} {sel : Nat → α → Bool} {f : α → α}
    {pr : Nat × α} (h : pr ∈ bulkUpdate l sel f) :
    ∃ q ∈ l, pr = if sel q.1 q.2 then (q.1, f q.2) else q := by
  obtain ⟨q, hq, hEq⟩ := List.mem_map.mp h
  exact ⟨q, hq, hEq.symm⟩

/-- Claim C8: `completed_at` is non-null only for `completed` payments:
the invariant holds for newly created payments and is preserved by the two
admin status transitions, and `mark_as_completed` stamps `completed_at`
on every selected pending payment. -/
theorem completed_at_invariant (db : DB) (ids : List Nat) (nowT member : Nat) (ref : String)
    (h : ∀ pr ∈ db.payments, payInv pr.2) :
    (∀ pr ∈ (mark_as_completed db ids nowT).1.payments, payInv pr.2) ∧
    (∀ pr ∈ (mark_as_failed db ids).1.payments, payInv pr.2) ∧
    payInv (mkPayment member ref) ∧
    (∀ pr ∈ db.payments, pr.1 ∈ ids → pr.2.status = PaymentStatus.pending →
        (pr.1, { pr.2 with status := PaymentStatus.completed, completed_at := some nowT })
          ∈ (mark_as_completed db ids nowT).1.payments) := by
  refine ⟨?_, ?_, ?_, ?_⟩
  · intro pr hpr
    have hpr2 : pr ∈ bulkUpdate db.payments
        (fun i p => decide (i ∈ ids ∧ p.status = PaymentStatus.pending))
        (fun p => { p with status := PaymentStatus.completed, completed_at := some nowT }) := hpr
    obtain ⟨q, hq, hEq⟩ := mem_bulkUpdate hpr2
    cases hs : decide (q.1 ∈ ids ∧ q.2.status = PaymentStatus.pending) with
    | true =>
      rw [hs, if_pos rfl] at hEq
      subst hEq
      exact fun _ => rfl
    | false =>
      rw [hs] at hEq
      simp only [Bool.false_eq_true, if_false] at hEq
      subst hEq
      exact h _ hq
  · intro pr hpr
    have hpr2 : pr ∈ bulkUpdate db.payments
        (fun i p => decide (i ∈ ids ∧ (p.status = PaymentStatus.initiated ∨
          p.status = PaymentStatus.pending)))
        (fun p => { p with status := PaymentStatus.failed }) := hpr
    obtain ⟨q, hq, hEq⟩ := mem_bulkUpdate hpr2
    cases hs : decide (q.1 ∈ ids ∧ (q.2.status = PaymentStatus.initiated ∨
        q.2.status = PaymentStatus.pending)) with
    | true =>
      rw [hs, if_pos rfl] at hEq
      subst hEq
      intro hne
      have hcomp : q.2.status = PaymentStatus.completed := h q hq hne
      have hc := of_decide_eq_true hs
      rcases hc.2 with h1 | h1 <;> rw [hcomp] at h1 <;> exact absurd h1 (by decide)
    | false =>
      rw [hs] at hEq
      simp only [Bool.false_eq_true, if_false] at hEq
      subst hEq
      exact h _ hq
  · intro hne
    exact absurd rfl hne
  · intro pr hpr hmid hpend
    refine List.mem_map.mpr ⟨pr, hpr, ?_⟩
    rw [if_pos (by simp only [decide_eq_true_eq]; exact ⟨hmid, hpend⟩)]

/-- Witness for C8 at a concrete store with one pending payment. -/
theorem completed_at_invariant_witness :
    (∀ pr ∈ dbPay.payments, payInv pr.2) ∧
    ((∀ pr ∈ (mark_as_completed dbPay [5] 777).1.payments, payInv pr.2) ∧
      (∀ pr ∈ (mark_as_failed dbPay [5]).1.payments, payInv pr.2) ∧
      payInv (mkPayment 2 "PAY-20240116-00FF00FF") ∧
      (∀ pr ∈ dbPay.payments, pr.1 ∈ [5] → pr.2.status = PaymentStatus.pending →
        (pr.1, { pr.2 with status := PaymentStatus.completed, completed_at := some 777 })
          ∈ (mark_as_completed dbPay [5] 777).1.payments)) :=
  ⟨by decide, completed_at_invariant dbPay [5] 777 2 "PAY-20240116-00FF00FF" (by decide)⟩

/-- Claim C4: `is_membership_active` returns false for every member that is
not `approved`, and for every `approved` member whose stored `expiry_date`
lies strictly in the past, without any stored "expire" transition. -/
theorem is_membership_active_false_cases (m : Member) (today : Nat)
    (h : m.status ≠ MemberStatus.approved ∨
         ∃ d, m.expiry_date = some d ∧ d < today) :
    m.is_membership_active today = false := by
  unfold Member.is_membership_active
  rcases h with hs | ⟨d, hd, hlt⟩
  · rw [if_pos hs]
  · by_cases hs : m.status = MemberStatus.approved
    · rw [if_neg (not_not.mpr hs)]
      simp only [hd]
      rw [if_pos hlt]
    · rw [if_pos hs]

/-- Witness for C4: an expired approved member and a pending member are both
inactive. -/
theorem is_membership_active_false_cases_witness :
    (memApproved.status ≠ MemberStatus.approved ∨
      ∃ d, memApproved.expiry_date = some d ∧ d < 600) ∧
    memApproved.is_membership_active 600 = false ∧
    (memPending.status ≠ MemberStatus.approved ∨
      ∃ d, memPending.expiry_date = some d ∧ d < 600) ∧
    memPending.is_membership_active 600 = false :=
  ⟨Or.inr ⟨500, rfl, by decide⟩,
   is_membership_active_false_cases memApproved 600 (Or.inr ⟨500, rfl, by decide⟩),
   Or.inl (by decide),
   is_membership_active_false_cases memPending 600 (Or.inl (by decide))⟩

/-- Claim C10: an `approved` member with a null `expiry_date` is active:
the expiry comparison is skipped entirely when the date is absent. -/
theorem is_membership_active_no_expiry (m : Member) (today : Nat)
    (h1 : m.status = MemberStatus.approved) (h2 : m.expiry_date = none) :
    m.is_membership_active today = true := by
  unfold Member.is_membership_active
  rw [if_neg (not_not.mpr h1)]
  simp only [h2]

/-- Witness for C10 at a concrete approved member without expiry date. -/
theorem is_membership_active_no_expiry_witness :
    memApprovedNoExpiry.status = MemberStatus.approved ∧
    memApprovedNoExpiry.expiry_date = none ∧
    memApprovedNoExpiry.is_membership_active 999999 = true :=
  ⟨rfl, rfl, is_membership_active_no_expiry memApprovedNoExpiry 999999 rfl rfl⟩

/-- Claim C1: for every sequence-based kind and scope year, the first
allocation in a fresh scope yields the `-0001` identifier and the second
yields `-0002`; concretely `KTS-2024-0001` / `KTS-2024-0002` and likewise
for the `RCT` and `CERT` kinds, including through the three model save
hooks. -/
theorem allocator_first_two :
    (∀ (kind : String) (year : Nat),
        allocate kind year [] = idPfx kind year ++ "-0001" ∧
        allocate kind year [allocate kind year []] = idPfx kind year ++ "-0002") ∧
    allocate "KTS" 2024 [] = "KTS-2024-0001" ∧
    allocate "KTS" 2024 ["KTS-2024-0001"] = "KTS-2024-0002" ∧
    allocate "RCT" 2024 ["RCT-2024-0001"] = "RCT-2024-0002" ∧
    allocate "CERT" 2024 [] = "CERT-2024-0001" ∧
    (Member.save 2024 [] memBlankId).membership_id = "KTS-2024-0001" ∧
    (PaymentReceipt.save 2024 [] recBlank).receipt_number = "RCT-2024-0001" ∧
    (MembershipCertificate.save 2024 [] certBlank).certificate_number = "CERT-2024-0001" := by
  refine ⟨?_, rfl, rfl, rfl, rfl, rfl, rfl, rfl⟩
  intro kind year
  refine ⟨alloc_empty_store kind year, ?_⟩
  rw [alloc_empty_store kind year]
  exact alloc_after_first kind year

/-- Counterexample to claim C5 as stated: in the schedule where both
callers read the committed identifiers before either insert commits — an
interleaving nothing in the source prevents — both allocations for
(`KTS`, 2024) produce the same identifier `KTS-2024-0001`. -/
theorem alloc_race_duplicate :
    (runAlloc "KTS" 2024 [.readA, .readB, .writeA, .writeB]).outA = some "KTS-2024-0001" ∧
    (runAlloc "KTS" 2024 [.readA, .readB, .writeA, .writeB]).outB = some "KTS-2024-0001" ∧
    (runAlloc "KTS" 2024 [.readA, .readB, .writeA, .writeB]).outA
      = (runAlloc "KTS" 2024 [.readA, .readB, .writeA, .writeB]).outB :=
  ⟨rfl, rfl, rfl⟩

/-- Claim C5 (amended): allocations yield pairwise-distinct identifiers only
when they are serialized: in the schedule where the first insert commits
before the second read, the two callers obtain `-0001` and `-0002`, which
differ; simultaneous callers can compute the same identifier, and only the
database unique constraint stops the duplicate from persisting. -/
theorem alloc_serialized_distinct (kind : String) (year : Nat) :
    (runAlloc kind year [.readA, .writeA, .readB, .writeB]).outA
        = some (idPfx kind year ++ "-0001") ∧
    (runAlloc kind year [.readA, .writeA, .readB, .writeB]).outB
        = some (idPfx kind year ++ "-0002") ∧
    (runAlloc kind year [.readA, .writeA, .readB, .writeB]).outA
        ≠ (runAlloc kind year [.readA, .writeA, .readB, .writeB]).outB := by
  have hA : (runAlloc kind year [.readA, .writeA, .readB, .writeB]).outA
      = some (allocate kind year []) := rfl
  have hB : (runAlloc kind year [.readA, .writeA, .readB, .writeB]).outB
      = some (allocate kind year [allocate kind year []]) := rfl
  have h1 : allocate kind year [] = idPfx kind year ++ "-0001" := alloc_empty_store kind year
  have h2 : allocate kind year [allocate kind year []] = idPfx kind year ++ "-0002" := by
    rw [h1]
    exact alloc_after_first kind year
  refine ⟨by rw [hA, h1], by rw [hB, h2], ?_⟩
  rw [hA, hB, h2, h1]
  intro hcontra
  have hs : idPfx kind year ++ "-0001" = idPfx kind year ++ "-0002" :=
    Option.some.inj hcontra
  have hdata : (idPfx kind year).data ++ "-0001".data
      = (idPfx kind year).data ++ "-0002".data := congrArg String.data hs
  have hsuffix : ("-0001".data : List Char) = "-0002".data :=
    List.append_cancel_left hdata
  exact absurd hsuffix (by decide)
